import Mathlib

/-!
Verification of the `prestamos` loan-ledger service (`src/index.js`).

Shallow embedding conventions:
* JavaScript numbers are modelled as exact rationals (`ℚ`); the IEEE-754
  representation error that `round2`'s epsilon nudge is designed to counter is
  not itself modelled, but the nudge is kept, so `round2` is the exact-rational
  reading of `Math.round((x + Number.EPSILON) * 100) / 100` with
  `Math.round y = ⌊y + 1/2⌋` (JS rounds half toward +∞).
* Calendar dates appear in two forms, as in the source: `YMD` mirrors the
  `(getFullYear, getMonth, getDate)` triple used by the schedule generator
  (JS months are 0-based and `new Date(y, m, d)` normalises month overflow by
  floor division into the year); ISO `YYYY-MM-DD` strings, whose lexicographic
  order is date order, are used where the source compares date strings
  (`installment.due_date < today`).  The server is taken to run in UTC, so
  `toDateOnly(new Date(y, m, d))` is plain ISO rendering of the triple.
* The Postgres store is a `Store` record; SQL statements become list
  operations; `SERIAL` ids are modelled with explicit counters.  Each HTTP
  handler becomes a pure function on `Store`; an error response corresponds to
  the handler's early `return` after `ROLLBACK`, which leaves the store as it
  was; the post-`COMMIT` recompute of `POST /payments` is modelled separately
  (see `postPayments`).  A `NaN` request number (absent or non-numeric JSON
  field) is modelled as `Option.none`.
-/

namespace Prestamos

/-! ## Definitions -/

/-- `Number.EPSILON` of JavaScript: 2⁻⁵². -/
def eps : ℚ := 1 / 2 ^ 52

/-- JavaScript `Math.round`: round half toward positive infinity. -/
def jsRound (y : ℚ) : ℤ := ⌊y + 1 / 2⌋

/-- `const round2 = (value) => Math.round((Number(value) + Number.EPSILON) * 100) / 100`. -/
def round2 (x : ℚ) : ℚ := ((jsRound ((x + eps) * 100) : ℤ) : ℚ) / 100

/-- A value that is an exact multiple of one cent (two decimal places). -/
def Cent (x : ℚ) : Prop := ∃ n : ℤ, x = (n : ℚ) / 100

/-- Modelled from the spec: rounding to two decimals with round-half-away-
from-zero applied to the epsilon-nudged value, the behaviour §4.1 of the spec
ascribes to `round2`; kept separate so it can be compared with the `round2`
embedded from the source. -/
def roundHalfAwayFromZero (y : ℚ) : ℤ :=
  if 0 ≤ y then ⌊y + 1 / 2⌋ else ⌈y - 1 / 2⌉

/-- Modelled from the spec: the spec's `round2` (§4.1). -/
def round2Spec (x : ℚ) : ℚ :=
  ((roundHalfAwayFromZero ((x + eps) * 100) : ℤ) : ℚ) / 100

/-! ### Calendar dates and the biweekly (quincenal) schedule generator -/

/-- The `(getFullYear, getMonth, getDate)` view of a JS `Date`:
`month` is 0-based as in JavaScript. -/
structure YMD where
  year : ℤ
  month : ℤ
  day : ℤ
deriving DecidableEq, Repr

/-- `new Date(year, month, day)` for a day that needs no day-level carry:
JS normalises the month by floor division into the year.  `ℤ`'s `/` and `%`
(Euclidean) agree with floor division for the positive modulus 12. -/
def mkDate (y m d : ℤ) : YMD :=
  ⟨y + m / 12, m % 12, d⟩

/-- `nextQuincenalFrom`: next schedule anchor (the 1st or the 15th) on or
after the given date. -/
def nextQuincenalFrom (dt : YMD) : YMD :=
  if dt.day ≤ 1 then mkDate dt.year dt.month 1
  else if dt.day ≤ 15 then mkDate dt.year dt.month 15
  else mkDate dt.year (dt.month + 1) 1

/-- `nextQuincenalAfter`: next schedule anchor strictly after the given date. -/
def nextQuincenalAfter (dt : YMD) : YMD :=
  if dt.day ≤ 1 then mkDate dt.year dt.month 15
  else if dt.day ≤ 15 then mkDate dt.year (dt.month + 1) 1
  else mkDate dt.year (dt.month + 1) 15

/-- The tail of the schedule loop: `k` further dates, each
`nextQuincenalAfter` the previous one. -/
def buildQuincenalAux : YMD → ℕ → List YMD
  | _, 0 => []
  | cur, Nat.succ k =>
    let d := nextQuincenalAfter cur
    d :: buildQuincenalAux d k

/-- `buildQuincenalSchedule(loanDateValue, installmentsCount)`: the loop pushes
`nextQuincenalFrom loanDate` first, then repeatedly `nextQuincenalAfter`. -/
def buildQuincenalSchedule (loanDate : YMD) (n : ℕ) : List YMD :=
  match n with
  | 0 => []
  | Nat.succ k =>
    let first := nextQuincenalFrom loanDate
    first :: buildQuincenalAux first k

/-- Linearisation of a date used to express chronological order; strictly
monotone w.r.t. lexicographic (year, month, day) order on the in-range dates
the generator produces. -/
def dateKey (d : YMD) : ℤ := d.year * 372 + d.month * 31 + d.day

/-- A date the schedule generator emits: on the 1st or 15th, month in range. -/
def QuinDate (d : YMD) : Prop :=
  (d.day = 1 ∨ d.day = 15) ∧ 0 ≤ d.month ∧ d.month < 12

/-- Two-digit zero padding of a month or day number. -/
def pad2 (n : ℤ) : String := if n < 10 then "0" ++ toString n else toString n

/-- `toDateOnly` on a `Date` built from a `YMD` triple (UTC server):
ISO `YYYY-MM-DD` rendering; the 0-based month is shifted to 1-based. -/
def dateToIso (d : YMD) : String :=
  toString d.year ++ "-" ++ pad2 (d.month + 1) ++ "-" ++ pad2 d.day

/-! ### Data model (tables of `initDb`) -/

/-- `installments.status` values. -/
inductive IStatus where
  | Pendiente
  | Atrasada
  | Pagada
deriving DecidableEq, Repr, BEq

/-- `loans.status` values. -/
inductive LStatus where
  | Activo
  | Finalizado
  | EnMora
deriving DecidableEq, Repr, BEq

/-- A row of `capital_movements` (audit trail). -/
structure Movement where
  mtype : String
  amount : ℚ
  loanId : Option ℕ
  paymentId : Option ℕ
  note : Option String
deriving DecidableEq, Repr

/-- A row of `loans`. -/
structure Loan where
  id : ℕ
  clientId : ℕ
  amount : ℚ
  loanDate : YMD
  installmentsCount : ℕ
  status : LStatus
  baseInstallment : ℚ
  interestPerInstallment : ℚ
  installmentTotal : ℚ
  totalPayable : ℚ
  paidTotal : ℚ
  pendingTotal : ℚ
deriving DecidableEq, Repr

/-- A row of `installments`. -/
structure Installment where
  id : ℕ
  loanId : ℕ
  number : ℕ
  dueDate : String
  amount : ℚ
  status : IStatus
  paidDate : Option String
  paidAmount : ℚ
deriving DecidableEq, Repr

/-- A row of `payments`. -/
structure PaymentRow where
  id : ℕ
  clientId : ℕ
  loanId : ℕ
  installmentId : Option ℕ
  paymentDate : String
  amount : ℚ
  ptype : String
deriving DecidableEq, Repr

/-- The durable state: the singleton `capital` row plus all tables.
`SERIAL` columns are modelled with the `next…Id` counters. -/
structure Store where
  capital : ℚ
  movements : List Movement
  clients : List ℕ
  loans : List Loan
  installments : List Installment
  payments : List PaymentRow
  nextClientId : ℕ
  nextLoanId : ℕ
  nextInstallmentId : ℕ
  nextPaymentId : ℕ
deriving DecidableEq, Repr

/-- The state after `initDb`: capital seeded at 0, all tables empty. -/
def initStore : Store :=
  { capital := 0, movements := [], clients := [], loans := [], installments := [],
    payments := [], nextClientId := 1, nextLoanId := 1, nextInstallmentId := 1,
    nextPaymentId := 1 }

/-- The sum of all movement amounts in the store. -/
def movementSum (s : Store) : ℚ := (s.movements.map Movement.amount).sum

/-- The auditability invariant of §4.5: capital equals the movement sum. -/
def capitalInvariant (s : Store) : Prop := s.capital = movementSum s

/-- The installments of one loan, in table order (`ORDER BY number ASC`:
rows are created in number order and never reordered). -/
def loanInstallments (s : Store) (lid : ℕ) : List Installment :=
  s.installments.filter (fun i => i.loanId == lid)

/-! ### Amortization calculator -/

/-- Result of `computeLoanFields`. -/
structure LoanFields where
  baseInstallment : ℚ
  interestPerInstallment : ℚ
  installmentTotal : ℚ
  totalPayable : ℚ
deriving DecidableEq, Repr

/-- `computeLoanFields(amount, installmentsCount)`; the JS literal `0.05`
is read as the exact rational 5/100. -/
def computeLoanFields (amount : ℚ) (installmentsCount : ℕ) : LoanFields :=
  let baseInstallment := round2 (amount / installmentsCount)
  let interestPerInstallment := round2 (amount * (5 / 100))
  let installmentTotal := round2 (baseInstallment + interestPerInstallment)
  let totalPayable := round2 (installmentTotal * installmentsCount)
  ⟨baseInstallment, interestPerInstallment, installmentTotal, totalPayable⟩

/-! ### Installment state machine and loan aggregator -/

/-- Lexicographic code-unit comparison on character lists. -/
def charListLt : List Char → List Char → Bool
  | [], [] => false
  | [], _ :: _ => true
  | _ :: _, [] => false
  | a :: as, b :: bs =>
    if a.val < b.val then true
    else if b.val < a.val then false
    else charListLt as bs

/-- JavaScript `<` on strings: lexicographic comparison of code units; on the
ISO `YYYY-MM-DD` strings the source compares, this is date order. -/
def strLt (a b : String) : Bool := charListLt a.data b.data

/-- One step of `refreshInstallmentStatuses` on a single row; `today` and the
due date are ISO strings compared lexicographically, as in the source. -/
def refreshStatus (today : String) (i : Installment) : Installment :=
  if i.amount ≤ i.paidAmount ∧ i.status ≠ IStatus.Pagada then
    { i with status := IStatus.Pagada }
  else if strLt i.dueDate today ∧ i.paidAmount < i.amount then
    (if i.status ≠ IStatus.Atrasada then { i with status := IStatus.Atrasada } else i)
  else if i.paidAmount < i.amount ∧ i.status ≠ IStatus.Pendiente then
    { i with status := IStatus.Pendiente }
  else i

/-- The `SELECT SUM(paid_amount), SUM(amount)` + `round2` computation shared
by `updateLoanTotalsAndStatus` and `POST /payments`: returns
`(paidTotal, pendingTotal)`. -/
def computeLoanTotals (xs : List Installment) : ℚ × ℚ :=
  let paidTotal := round2 ((xs.map Installment.paidAmount).sum)
  let amountTotal := round2 ((xs.map Installment.amount).sum)
  (paidTotal, round2 (amountTotal - paidTotal))

/-- The loop of `refreshInstallmentStatuses(loanId)` over the whole table:
rows of other loans are untouched. -/
def refreshLoanInstallments (today : String) (lid : ℕ) (l : List Installment) :
    List Installment :=
  l.map (fun i => if i.loanId == lid then refreshStatus today i else i)

/-- `updateLoanTotalsAndStatus(loanId)`: refresh installment statuses, then
recompute the loan's totals and status. -/
def updateLoanTotalsAndStatus (today : String) (lid : ℕ) (s : Store) : Store :=
  let s1 : Store :=
    { s with installments := refreshLoanInstallments today lid s.installments }
  let xs := loanInstallments s1 lid
  let t := computeLoanTotals xs
  let late := xs.countP (fun i => i.status == IStatus.Atrasada)
  let status :=
    if t.2 ≤ 0 then LStatus.Finalizado
    else if 0 < late then LStatus.EnMora
    else LStatus.Activo
  { s1 with loans :=
      s1.loans.map (fun l =>
        if l.id == lid then { l with paidTotal := t.1, pendingTotal := t.2, status := status }
        else l) }

/-! ### Capital ledger and clients -/

/-- `PUT /capital` after request validation (`amount` finite): set the capital
to an absolute value, recording the delta as a `manual_set` movement when it
is non-zero. -/
def putCapitalOp (a : ℚ) (s : Store) : Store :=
  if a < 0 then s
  else
    let delta := round2 (a - s.capital)
    let s1 : Store := { s with capital := round2 a }
    if delta = 0 then s1
    else { s1 with movements := s1.movements ++
      [⟨"manual_set", delta, none, none, some "Capital actualizado manualmente"⟩] }

/-- `POST /capital/adjust` (`delta` finite): add a delta, rejecting a negative
result; the movement records the raw, un-rounded delta. -/
def adjustCapitalOp (delta : ℚ) (note : Option String) (s : Store) : Store :=
  let next := round2 (s.capital + delta)
  if next < 0 then s
  else { s with
         capital := next
         movements := s.movements ++ [⟨"manual_adjust", delta, none, none, note⟩] }

/-- `POST /clients` (body validation external): insert a client row. -/
def newClientOp (s : Store) : Store :=
  { s with clients := s.clients ++ [s.nextClientId], nextClientId := s.nextClientId + 1 }

/-! ### Loan creation -/

/-- `POST /loans`: validate, check capital, insert the loan and its
installment schedule, debit capital and record a `loan` movement.  Error
responses (validation, unknown client, insufficient capital) leave the store
unchanged. -/
def createLoanOp (clientId : ℕ) (amount : ℚ) (loanDate : YMD) (count : ℕ) (s : Store) :
    Store :=
  if amount ≤ 0 then s
  else if count = 0 then s
  else if ¬ s.clients.contains clientId then s
  else if s.capital < amount then s
  else
    let f := computeLoanFields amount count
    let lid := s.nextLoanId
    let loan : Loan :=
      { id := lid, clientId := clientId, amount := round2 amount, loanDate := loanDate,
        installmentsCount := count, status := LStatus.Activo,
        baseInstallment := f.baseInstallment,
        interestPerInstallment := f.interestPerInstallment,
        installmentTotal := f.installmentTotal, totalPayable := f.totalPayable,
        paidTotal := 0, pendingTotal := f.totalPayable }
    let sch := buildQuincenalSchedule loanDate count
    let rows := sch.enum.map (fun p =>
      ({ id := s.nextInstallmentId + p.1, loanId := lid, number := p.1 + 1,
         dueDate := dateToIso p.2, amount := f.installmentTotal,
         status := IStatus.Pendiente, paidDate := none, paidAmount := 0 } : Installment))
    { s with
      loans := s.loans ++ [loan]
      installments := s.installments ++ rows
      capital := round2 (s.capital - amount)
      movements := s.movements ++ [⟨"loan", -amount, some lid, none, some "Préstamo creado"⟩]
      nextLoanId := lid + 1
      nextInstallmentId := s.nextInstallmentId + count }

/-! ### Cascade eraser -/

/-- `deleteLoanCascade`: remove the movements referencing the loan or its
payments, then the payments, installments and the loan row itself.  The
capital amount is not touched. -/
def deleteLoanCascadeOp (lid : ℕ) (s : Store) : Store :=
  if (s.loans.find? (fun l => l.id == lid)).isNone then s
  else
    let pids := (s.payments.filter (fun p => p.loanId == lid)).map PaymentRow.id
    { s with
      movements := (s.movements.filter (fun m => !(m.loanId == some lid))).filter
        (fun m => !(match m.paymentId with
                    | some p => pids.contains p
                    | none => false)),
      payments := s.payments.filter (fun p => !(p.loanId == lid)),
      installments := s.installments.filter (fun i => !(i.loanId == lid)),
      loans := s.loans.filter (fun l => !(l.id == lid)) }

/-! ### Payment allocator (`POST /payments`) -/

/-- Request body of `POST /payments`; `none` in `amount` models an absent or
non-numeric field (`NaN` after `Number(...)`). -/
structure PayReq where
  clientId : Option ℕ
  loanId : Option ℕ
  installmentId : Option ℕ
  amount : Option ℚ
  paymentDate : String
  payoff : Bool
deriving DecidableEq, Repr

/-- `Number.isFinite(parsedAmount) && parsedAmount > 0`. -/
def validAmountB (a : Option ℚ) : Bool :=
  match a with
  | some x => 0 < x
  | none => false

/-- `Number.isFinite(parsedAmount) ? round2(parsedAmount) : 0`. -/
def roundedAmountOf (a : Option ℚ) : ℚ :=
  match a with
  | some x => round2 x
  | none => 0

/-- Lookup of the targeted installment (only for a normal payment that names
one); the source joins `loans` just to read `client_id`. -/
def instLookup (req : PayReq) (s : Store) : Except String (Option Installment) :=
  if req.payoff then Except.ok none
  else
    match req.installmentId with
    | some iid =>
      match s.installments.find? (fun i => i.id == iid) with
      | some r => Except.ok (some r)
      | none => Except.error "installment not found"
    | none => Except.ok none

/-- Per-installment pending principal of the payoff computation:
`round2(baseInstallment - min(baseInstallment, max(0, paidAmount - interestPerInstallment)))`. -/
def principalPendingOf (b i : ℚ) (inst : Installment) : ℚ :=
  round2 (b - min b (max 0 (inst.paidAmount - i)))

/-- The payoff total loop: accumulate the positive pending principals with
`round2` at each step. -/
def payoffTotalOf (b i : ℚ) (xs : List Installment) : ℚ :=
  xs.foldl (fun acc inst =>
    let principalPending := principalPendingOf b i inst
    if principalPending ≤ 0 then acc else round2 (acc + principalPending)) 0

/-- Stated from the claim, for comparison with the payoff loop: the plain sum
of the positive per-installment pending principals. -/
def positivePendingSum (b i : ℚ) (xs : List Installment) : ℚ :=
  (xs.map (fun j => if principalPendingOf b i j ≤ 0 then 0 else principalPendingOf b i j)).sum

/-- The payoff rewrite of one installment: an installment with positive
pending principal is closed at `round2(paidAmount + principalPending)`. -/
def payoffRewrite (b i : ℚ) (pd : String) (inst : Installment) : Installment :=
  let principalPending := principalPendingOf b i inst
  if principalPending ≤ 0 then inst
  else
    let newPaid := round2 (inst.paidAmount + principalPending)
    { inst with
      amount := newPaid
      paidAmount := newPaid
      status := IStatus.Pagada
      paidDate := some pd }

/-- `startNumber !== null && Number(inst.number) < startNumber`. -/
def startNumberSkip (startNumber : Option ℕ) (num : ℕ) : Bool :=
  match startNumber with
  | some k => num < k
  | none => false

/-- The normal-payment allocation loop.  The source iterates over the loan's
rows only (`WHERE loan_id = $1 ORDER BY number ASC`); walking the whole table
in order while leaving other loans' rows untouched and not consuming
`remaining` on them is equivalent. -/
def allocate (lid : ℕ) (startNumber : Option ℕ) (pd : String) :
    ℚ → List Installment → List Installment
  | _, [] => []
  | remaining, inst :: rest =>
    if remaining ≤ 0 then inst :: rest
    else if !(inst.loanId == lid) then inst :: allocate lid startNumber pd remaining rest
    else if startNumberSkip startNumber inst.number then
      inst :: allocate lid startNumber pd remaining rest
    else
      let pending := round2 (inst.amount - inst.paidAmount)
      if pending ≤ 0 then inst :: allocate lid startNumber pd remaining rest
      else
        let applied := if pending ≤ remaining then pending else remaining
        let newPaid := round2 (inst.paidAmount + applied)
        let status := if inst.amount ≤ newPaid then IStatus.Pagada else inst.status
        let inst1 : Installment :=
          { inst with
            paidAmount := newPaid
            status := status
            paidDate := if status = IStatus.Pagada then some pd else inst.paidDate }
        inst1 :: allocate lid startNumber pd (round2 (remaining - applied)) rest

/-- The writes after the amount is settled: payment row, installment
updates, the payoff loan rewrite, capital credit and `payment`/`payoff`
movement.  Always succeeds (reaching this point commits). -/
def finishPayment (req : PayReq) (s : Store) (lid : ℕ) (loan : Loan) (cid : ℕ)
    (startNumber : Option ℕ) (paymentAmount : ℚ) : Except String (Store × ℕ) :=
  let payRow : PaymentRow :=
    { id := s.nextPaymentId, clientId := cid, loanId := lid,
      installmentId := if req.payoff then none else req.installmentId,
      paymentDate := req.paymentDate, amount := paymentAmount,
      ptype := if req.payoff then "payoff" else "payment" }
  let newInstallments :=
    if req.payoff then
      s.installments.map (fun i =>
        if i.loanId == lid then
          payoffRewrite loan.baseInstallment loan.interestPerInstallment req.paymentDate i
        else i)
    else allocate lid startNumber req.paymentDate paymentAmount s.installments
  let newLoans :=
    if req.payoff then
      let updatedTotal :=
        round2 (((newInstallments.filter (fun i => i.loanId == lid)).map
          Installment.amount).sum)
      s.loans.map (fun l =>
        if l.id == lid then
          { l with
            totalPayable := updatedTotal
            paidTotal := updatedTotal
            pendingTotal := 0
            status := LStatus.Finalizado }
        else l)
    else s.loans
  Except.ok
    ({ s with
       installments := newInstallments
       loans := newLoans
       payments := s.payments ++ [payRow]
       nextPaymentId := s.nextPaymentId + 1
       capital := round2 (s.capital + paymentAmount)
       movements := s.movements ++
         [⟨if req.payoff then "payoff" else "payment", paymentAmount, some lid,
           some payRow.id,
           some (if req.payoff then "Pago total registrado" else "Pago registrado")⟩] },
     lid)

/-- The body of the payment transaction once the loan row is locked:
pending-total gate, amount determination and the final writes. -/
def postPaymentsTxBody (req : PayReq) (s : Store) (instRow : Option Installment)
    (lid : ℕ) (loan : Loan) : Except String (Store × ℕ) :=
  let cid :=
    match instRow with
    | some _ => loan.clientId
    | none =>
      match req.clientId with
      | some c => c
      | none => loan.clientId
  let xs := loanInstallments s lid
  let t := computeLoanTotals xs
  if t.2 ≤ 0 then Except.error "loan already paid"
  else if req.payoff then
    let payoffTotal := payoffTotalOf loan.baseInstallment loan.interestPerInstallment xs
    if payoffTotal ≤ 0 then Except.error "loan already paid"
    else finishPayment req s lid loan cid (instRow.map Installment.number) payoffTotal
  else
    let roundedAmount := roundedAmountOf req.amount
    if t.2 < roundedAmount then Except.error "amount exceeds loan pending total"
    else finishPayment req s lid loan cid (instRow.map Installment.number) roundedAmount

/-- The transactional part of `POST /payments` (`BEGIN` … `COMMIT`): an
`Except.error` is the handler's early return after `ROLLBACK`. -/
def postPaymentsTx (req : PayReq) (s : Store) : Except String (Store × ℕ) :=
  if !req.payoff && !(validAmountB req.amount) then
    Except.error "amount must be greater than 0"
  else
    match instLookup req s with
    | Except.error e => Except.error e
    | Except.ok instRow =>
      match (match instRow with
             | some r => some r.loanId
             | none => req.loanId) with
      | none => Except.error "loanId is required"
      | some lid =>
        match s.loans.find? (fun l => l.id == lid) with
        | none => Except.error "loan not found"
        | some loan => postPaymentsTxBody req s instRow lid loan

/-- `POST /payments` end to end.  After `COMMIT` the handler calls
`updateLoanTotalsAndStatus` outside the transaction; `aggFails` injects a
storage failure of that recompute (its first query failing, which the
handler's `catch` answers with a `ROLLBACK` of the already-committed
transaction — a no-op).  The first component is the error response, if any;
the second is the store an observer sees afterwards. -/
def postPayments (aggFails : Bool) (today : String) (req : PayReq) (s : Store) :
    Option String × Store :=
  match postPaymentsTx req s with
  | Except.error e => (some e, s)
  | Except.ok (s1, lid) =>
    if aggFails then (some "storage error", s1)
    else (none, updateLoanTotalsAndStatus today lid s1)

/-! ### Schedule repair (`ensureQuincenalInstallments`, shared with
`POST /maintenance/fix-installment-dates`) -/

/-- The repair on one loan's due dates: with more than one row all sharing
one due date, regenerate the schedule and overwrite row `i` with entry `i`
(`List.take` models the index-wise overwrite; the stored
`installments_count` equals the row count for every loan the service
creates). -/
def ensureQuincenal (loanDate : YMD) (count : ℕ) (dues : List YMD) : List YMD :=
  if dues.length ≤ 1 then dues
  else if 1 < dues.dedup.length then dues
  else (buildQuincenalSchedule loanDate count).take dues.length

/-! ### Sequences of operations (for the capital invariant) -/

/-- One externally triggered mutating operation of the service. -/
inductive Op where
  | putCap (a : ℚ)
  | adjCap (d : ℚ) (note : Option String)
  | newClient
  | newLoan (clientId : ℕ) (amount : ℚ) (loanDate : YMD) (count : ℕ)
  | pay (aggFails : Bool) (today : String) (req : PayReq)
  | delLoan (lid : ℕ)

/-- Apply one operation to the store. -/
def applyOp : Op → Store → Store
  | Op.putCap a, s => putCapitalOp a s
  | Op.adjCap d note, s => adjustCapitalOp d note s
  | Op.newClient, s => newClientOp s
  | Op.newLoan c a ld n, s => createLoanOp c a ld n s
  | Op.pay f t r, s => (postPayments f t r s).2
  | Op.delLoan l, s => deleteLoanCascadeOp l s

/-- Run a sequence of operations from the freshly initialised store. -/
def runOps (ops : List Op) : Store :=
  ops.foldl (fun s op => applyOp op s) initStore

/-- The operations under which the capital invariant is provable: manual
adjustments and loan principals must be exact two-decimal values, and no
cascade deletion occurs. -/
def goodOp : Op → Prop
  | Op.adjCap d _ => Cent d
  | Op.newLoan _ a _ _ => Cent a
  | Op.delLoan _ => False
  | _ => True

/-! ## Theorems -/

/-! ### Rounding lemmas -/

theorem cent_round2 (x : ℚ) : Cent (round2 x) := ⟨jsRound ((x + eps) * 100), rfl⟩

theorem cent_zero : Cent 0 := ⟨0, by norm_num⟩

theorem cent_add {x y : ℚ} (hx : Cent x) (hy : Cent y) : Cent (x + y) := by
  obtain ⟨m, rfl⟩ := hx
  obtain ⟨n, rfl⟩ := hy
  exact ⟨m + n, by push_cast; ring⟩

theorem cent_neg {x : ℚ} (hx : Cent x) : Cent (-x) := by
  obtain ⟨m, rfl⟩ := hx
  exact ⟨-m, by push_cast; ring⟩

theorem cent_sub {x y : ℚ} (hx : Cent x) (hy : Cent y) : Cent (x - y) := by
  simpa [sub_eq_add_neg] using cent_add hx (cent_neg hy)

theorem cent_sum {l : List ℚ} (h : ∀ x ∈ l, Cent x) : Cent l.sum := by
  induction l with
  | nil => simpa using cent_zero
  | cons a l ih =>
    simp only [List.sum_cons]
    exact cent_add (h a (by simp)) (ih fun x hx => h x (by simp [hx]))

/-- `round2` is the identity on exact two-decimal values. -/
theorem round2_cent {x : ℚ} (hx : Cent x) : round2 x = x := by
  obtain ⟨n, rfl⟩ := hx
  have h1 : ((n : ℚ) / 100 + eps) * 100 = (n : ℚ) + (eps * 100 + 1 / 2) - 1 / 2 := by ring
  have h2 : jsRound (((n : ℚ) / 100 + eps) * 100) = n := by
    unfold jsRound
    rw [h1]
    have h3 : (n : ℚ) + (eps * 100 + 1 / 2) - 1 / 2 + 1 / 2 = (n : ℚ) + (eps * 100 + 1 / 2) := by
      ring
    rw [h3, Int.floor_int_add]
    have hfl : ⌊eps * 100 + 1 / 2⌋ = 0 := by
      rw [Int.floor_eq_zero_iff]
      constructor <;> norm_num [eps]
    omega
  unfold round2
  rw [h2]

/-- Adding an exact two-decimal value commutes with `round2`. -/
theorem round2_add_cent {c : ℚ} (hc : Cent c) (x : ℚ) :
    round2 (x + c) = round2 x + c := by
  obtain ⟨n, rfl⟩ := hc
  have h1 : (x + (n : ℚ) / 100 + eps) * 100 = (x + eps) * 100 + (n : ℚ) := by ring
  unfold round2 jsRound
  rw [h1]
  have h2 : (x + eps) * 100 + (n : ℚ) + 1 / 2 = (x + eps) * 100 + 1 / 2 + (n : ℚ) := by ring
  rw [h2, Int.floor_add_int]
  push_cast
  ring

theorem round2_add_of_cent {x y : ℚ} (hx : Cent x) (hy : Cent y) :
    round2 (x + y) = x + y :=
  round2_cent (cent_add hx hy)

theorem round2_sub_of_cent {x y : ℚ} (hx : Cent x) (hy : Cent y) :
    round2 (x - y) = x - y :=
  round2_cent (cent_sub hx hy)

/-! ### Schedule lemmas -/

theorem quinDate_nextQuincenalFrom (d : YMD) : QuinDate (nextQuincenalFrom d) := by
  unfold nextQuincenalFrom mkDate QuinDate
  split
  · refine ⟨Or.inl rfl, ?_, ?_⟩ <;> simp <;> omega
  · split
    · refine ⟨Or.inr rfl, ?_, ?_⟩ <;> simp <;> omega
    · refine ⟨Or.inl rfl, ?_, ?_⟩ <;> simp <;> omega

theorem quinDate_nextQuincenalAfter {d : YMD} (h : QuinDate d) :
    QuinDate (nextQuincenalAfter d) := by
  obtain ⟨hday, hm0, hm1⟩ := h
  unfold nextQuincenalAfter mkDate QuinDate
  split
  · refine ⟨Or.inr rfl, ?_, ?_⟩ <;> simp <;> omega
  · split
    · refine ⟨Or.inl rfl, ?_, ?_⟩ <;> simp <;> omega
    · refine ⟨Or.inr rfl, ?_, ?_⟩ <;> simp <;> omega

theorem dateKey_lt_nextQuincenalAfter {d : YMD} (h : QuinDate d) :
    dateKey d < dateKey (nextQuincenalAfter d) := by
  obtain ⟨hday, hm0, hm1⟩ := h
  unfold nextQuincenalAfter mkDate dateKey
  rcases hday with h1 | h15 <;> split <;> (try dsimp only) <;> try omega
  all_goals (split <;> (try dsimp only) <;> omega)

theorem buildQuincenalAux_length (k : ℕ) : ∀ cur, (buildQuincenalAux cur k).length = k := by
  induction k with
  | zero => intro cur; rfl
  | succ k ih => intro cur; simp [buildQuincenalAux, ih]

theorem buildQuincenalAux_chain (k : ℕ) :
    ∀ cur, List.Chain (fun a b => b = nextQuincenalAfter a) cur (buildQuincenalAux cur k) := by
  induction k with
  | zero => intro cur; exact List.Chain.nil
  | succ k ih =>
    intro cur
    exact List.Chain.cons rfl (ih (nextQuincenalAfter cur))

theorem buildQuincenalAux_quin (k : ℕ) :
    ∀ cur, QuinDate cur → ∀ x ∈ buildQuincenalAux cur k, QuinDate x := by
  induction k with
  | zero => intro cur _ x hx; simp [buildQuincenalAux] at hx
  | succ k ih =>
    intro cur hcur x hx
    simp only [buildQuincenalAux, List.mem_cons] at hx
    rcases hx with rfl | hx
    · exact quinDate_nextQuincenalAfter hcur
    · exact ih _ (quinDate_nextQuincenalAfter hcur) x hx

theorem buildQuincenalAux_chain_lt (k : ℕ) :
    ∀ cur, QuinDate cur →
      List.Chain (fun a b => dateKey a < dateKey b) cur (buildQuincenalAux cur k) := by
  induction k with
  | zero => intro cur _; exact List.Chain.nil
  | succ k ih =>
    intro cur hcur
    exact List.Chain.cons (dateKey_lt_nextQuincenalAfter hcur)
      (ih (nextQuincenalAfter cur) (quinDate_nextQuincenalAfter hcur))

theorem buildQuincenalSchedule_length (d : YMD) (n : ℕ) :
    (buildQuincenalSchedule d n).length = n := by
  cases n with
  | zero => rfl
  | succ k => simp [buildQuincenalSchedule, buildQuincenalAux_length]

theorem buildQuincenalSchedule_quin (d : YMD) (n : ℕ) :
    ∀ x ∈ buildQuincenalSchedule d n, QuinDate x := by
  cases n with
  | zero => intro x hx; simp [buildQuincenalSchedule] at hx
  | succ k =>
    intro x hx
    simp only [buildQuincenalSchedule, List.mem_cons] at hx
    rcases hx with rfl | hx
    · exact quinDate_nextQuincenalFrom d
    · exact buildQuincenalAux_quin k _ (quinDate_nextQuincenalFrom d) x hx

theorem buildQuincenalSchedule_pairwise_lt (d : YMD) (n : ℕ) :
    List.Pairwise (fun a b => dateKey a < dateKey b) (buildQuincenalSchedule d n) := by
  cases n with
  | zero => exact List.Pairwise.nil
  | succ k =>
    have hch : List.Chain' (fun a b => dateKey a < dateKey b)
        (nextQuincenalFrom d :: buildQuincenalAux (nextQuincenalFrom d) k) :=
      buildQuincenalAux_chain_lt k _ (quinDate_nextQuincenalFrom d)
    haveI : IsTrans YMD (fun a b => dateKey a < dateKey b) :=
      ⟨fun _ _ _ h1 h2 => lt_trans h1 h2⟩
    exact List.chain'_iff_pairwise.mp hch

/-! ### Claim C5: installment state machine -/

/-- C5: after a status refresh against `today`, an installment with
`paidAmount ≥ amount` is `Pagada`; otherwise it is `Atrasada` when its due
date is before today and `Pendiente` when it is not. -/
theorem claim_C5 (today : String) (i : Installment) :
    (i.amount ≤ i.paidAmount → (refreshStatus today i).status = IStatus.Pagada) ∧
    (i.paidAmount < i.amount → strLt i.dueDate today = true →
      (refreshStatus today i).status = IStatus.Atrasada) ∧
    (i.paidAmount < i.amount → strLt i.dueDate today = false →
      (refreshStatus today i).status = IStatus.Pendiente) := by
  unfold refreshStatus
  refine ⟨?_, ?_, ?_⟩
  · intro h
    split_ifs with c1 c2 c3 <;> simp_all <;> try linarith
  · intro h hlt
    split_ifs with c1 c2 c3 <;> simp_all <;> try linarith
  · intro h hlt
    split_ifs with c1 c2 c3 <;> simp_all <;> try linarith

/-- Witness for C5: an unpaid installment due 2024-01-01 refreshed on
2024-06-01 becomes `Atrasada`. -/
theorem claim_C5_witness :
    (0 : ℚ) < 300 ∧
    (refreshStatus "2024-06-01"
      ⟨1, 1, 1, "2024-01-01", 300, IStatus.Pendiente, none, 0⟩).status = IStatus.Atrasada :=
  ⟨by norm_num,
   (claim_C5 "2024-06-01" ⟨1, 1, 1, "2024-01-01", 300, IStatus.Pendiente, none, 0⟩).2.1
     (by norm_num) (by decide)⟩

/-! ### Claim C8: the rounding function -/

/-- C8 counterexample: at `x = -1/200 - ε` the epsilon-nudged scaled value is
exactly `-1/2`; the source's `Math.round` (half toward +∞) gives `0`, while
round-half-away-from-zero as the spec states gives `-0.01`. -/
theorem claim_C8_counterexample :
    round2 (-(1 / 200) - eps) = 0 ∧
    round2Spec (-(1 / 200) - eps) = -(1 / 100) ∧
    round2 (-(1 / 200) - eps) ≠ round2Spec (-(1 / 200) - eps) := by
  have hc1 : (⌈(-1 : ℚ)⌉ : ℤ) = -1 := by
    rw [show ((-1 : ℚ)) = ((-1 : ℤ) : ℚ) by norm_num, Int.ceil_intCast]
  norm_num [round2, round2Spec, jsRound, roundHalfAwayFromZero, eps, hc1]

/-- C8 amended: `round2` agrees with rounding half away from zero on the
epsilon-nudged value whenever the nudged scaled value is nonnegative or is
not an exact negative-side tie `n - 1/2`; at such ties the source rounds
half toward +∞ instead. -/
theorem claim_C8_amended (x : ℚ)
    (h : 0 ≤ (x + eps) * 100 ∨ ∀ n : ℤ, (x + eps) * 100 ≠ (n : ℚ) - 1 / 2) :
    round2 x = round2Spec x := by
  unfold round2 round2Spec jsRound roundHalfAwayFromZero
  rcases le_or_lt 0 ((x + eps) * 100) with hy | hy
  · rw [if_pos hy]
  · rw [if_neg (not_le.mpr hy)]
    rcases h with h | h
    · exact absurd h (not_le.mpr hy)
    · set y := (x + eps) * 100 with hy2
      have hz : Int.fract (y - 1 / 2) ≠ 0 := by
        intro h0
        obtain ⟨_, _, z, hzz⟩ := Int.fract_eq_iff.mp h0
        exact h (z + 1) (by push_cast at hzz ⊢; linarith)
      have hceil : ((⌈y - 1 / 2⌉ : ℤ) : ℚ) = ((⌊y - 1 / 2⌋ : ℤ) : ℚ) + 1 := by
        rw [Int.ceil_eq_add_one_sub_fract hz, ← Int.self_sub_floor]
        ring
      have hceil2 : (⌈y - 1 / 2⌉ : ℤ) = ⌊y - 1 / 2⌋ + 1 := by exact_mod_cast hceil
      have hfl : ⌊y + 1 / 2⌋ = ⌊y - 1 / 2⌋ + 1 := by
        have h3 : y + 1 / 2 = (y - 1 / 2) + 1 := by ring
        rw [h3, ← Int.floor_add_one]
      rw [hceil2, hfl]

/-- Witness for C8 amended: at `x = 1/3` the two roundings agree. -/
theorem claim_C8_amended_witness :
    round2 (1 / 3) = round2Spec (1 / 3) :=
  claim_C8_amended (1 / 3) (Or.inl (by norm_num [eps]))

/-! ### Claim C9: the amortization calculator at loan creation -/

/-- C9: a created loan stores `baseInstallment = round2(p/n)`,
`interestPerInstallment = round2(p*0.05)`, `installmentTotal` their rounded
sum, and `totalPayable = round2(installmentTotal*n)` (also as the initial
pending total, with 0 paid). -/
theorem claim_C9 (s : Store) (clientId : ℕ) (a : ℚ) (ld : YMD) (n : ℕ)
    (ha : 0 < a) (hn : n ≠ 0) (hc : s.clients.contains clientId = true)
    (hcap : ¬ s.capital < a) :
    (createLoanOp clientId a ld n s).loans = s.loans ++
      [{ id := s.nextLoanId, clientId := clientId, amount := round2 a, loanDate := ld,
         installmentsCount := n, status := LStatus.Activo,
         baseInstallment := round2 (a / n),
         interestPerInstallment := round2 (a * (5 / 100)),
         installmentTotal := round2 (round2 (a / n) + round2 (a * (5 / 100))),
         totalPayable := round2 (round2 (round2 (a / n) + round2 (a * (5 / 100))) * n),
         paidTotal := 0,
         pendingTotal := round2 (round2 (round2 (a / n) + round2 (a * (5 / 100))) * n) }] := by
  unfold createLoanOp computeLoanFields
  rw [if_neg (by linarith : ¬ a ≤ 0), if_neg hn, if_neg (not_not_intro hc), if_neg hcap]

/-- Witness for C9: a loan of 1000 over 4 installments stores 250, 50, 300
and 1200. -/
theorem claim_C9_witness :
    (createLoanOp 1 1000 ⟨2024, 5, 10⟩ 4
        ⟨1000, [], [1], [], [], [], 2, 1, 1, 1⟩).loans =
      [{ id := 1, clientId := 1, amount := 1000, loanDate := ⟨2024, 5, 10⟩,
         installmentsCount := 4, status := LStatus.Activo, baseInstallment := 250,
         interestPerInstallment := 50, installmentTotal := 300, totalPayable := 1200,
         paidTotal := 0, pendingTotal := 1200 }] := by
  rw [claim_C9 ⟨1000, [], [1], [], [], [], 2, 1, 1, 1⟩ 1 1000 ⟨2024, 5, 10⟩ 4
    (by norm_num) (by norm_num) (by decide) (by norm_num)]
  norm_num [round2, jsRound, eps]

/-! ### Claims C6 and C7: schedule generation and repair -/

/-- Helper: a list whose dedup has at most one element has all members equal. -/
theorem dedup_length_le_one {α : Type _} [DecidableEq α] {l : List α}
    (h : l.dedup.length ≤ 1) : ∀ x ∈ l, ∀ y ∈ l, x = y := by
  intro x hx y hy
  rw [← List.mem_dedup] at hx hy
  cases hd : l.dedup with
  | nil => rw [hd] at hx; simp at hx
  | cons z t =>
    rw [hd] at hx hy h
    have ht : t = [] := by
      cases t with
      | nil => rfl
      | cons w u => simp at h
    subst ht
    simp at hx hy
    rw [hx, hy]

/-- C6: for every loan date and every n ≥ 1, the generated schedule has
exactly n dates, starts at `nextQuincenalFrom`, steps by `nextQuincenalAfter`,
is strictly increasing, and every date falls on the 1st or the 15th. -/
theorem claim_C6 (d : YMD) (n : ℕ) (hn : 1 ≤ n) :
    (buildQuincenalSchedule d n).length = n ∧
    (buildQuincenalSchedule d n).head? = some (nextQuincenalFrom d) ∧
    List.Chain' (fun a b => b = nextQuincenalAfter a) (buildQuincenalSchedule d n) ∧
    List.Pairwise (fun a b => dateKey a < dateKey b) (buildQuincenalSchedule d n) ∧
    ∀ x ∈ buildQuincenalSchedule d n, x.day = 1 ∨ x.day = 15 := by
  obtain ⟨k, rfl⟩ : ∃ k, n = k + 1 := ⟨n - 1, by omega⟩
  exact ⟨buildQuincenalSchedule_length d _, rfl,
    buildQuincenalAux_chain k (nextQuincenalFrom d),
    buildQuincenalSchedule_pairwise_lt d _,
    fun x hx => (buildQuincenalSchedule_quin d _ x hx).1⟩

/-- Witness for C6: the schedule of 2024-01-20 over 3 installments. -/
theorem claim_C6_witness :
    buildQuincenalSchedule ⟨2024, 0, 20⟩ 3 = [⟨2024, 1, 1⟩, ⟨2024, 1, 15⟩, ⟨2024, 2, 1⟩] ∧
    (buildQuincenalSchedule ⟨2024, 0, 20⟩ 3).length = 3 ∧
    (buildQuincenalSchedule ⟨2024, 0, 20⟩ 3).head? = some (nextQuincenalFrom ⟨2024, 0, 20⟩) :=
  ⟨by decide, (claim_C6 ⟨2024, 0, 20⟩ 3 (by norm_num)).1,
    (claim_C6 ⟨2024, 0, 20⟩ 3 (by norm_num)).2.1⟩

/-- C7: the schedule repair is idempotent: a second run returns the same due
dates, because a repaired (or already diverse) schedule fails the
all-dates-identical check. -/
theorem claim_C7 (ld : YMD) (count : ℕ) (dues : List YMD) :
    ensureQuincenal ld count (ensureQuincenal ld count dues) = ensureQuincenal ld count dues := by
  by_cases h1 : dues.length ≤ 1
  · have hi : ensureQuincenal ld count dues = dues := by
      rw [ensureQuincenal, if_pos h1]
    rw [hi]
    exact hi
  · by_cases h2 : 1 < dues.dedup.length
    · have hi : ensureQuincenal ld count dues = dues := by
        rw [ensureQuincenal, if_neg h1, if_pos h2]
      rw [hi]
      exact hi
    · have hi : ensureQuincenal ld count dues =
          (buildQuincenalSchedule ld count).take dues.length := by
        rw [ensureQuincenal, if_neg h1, if_neg h2]
      rw [hi]
      rcases le_or_lt ((buildQuincenalSchedule ld count).take dues.length).length 1 with hlen | hlen
      · rw [ensureQuincenal, if_pos hlen]
      · have hpw : List.Pairwise (fun a b => dateKey a < dateKey b)
            ((buildQuincenalSchedule ld count).take dues.length) :=
          (buildQuincenalSchedule_pairwise_lt ld count).sublist (List.take_sublist _ _)
        obtain ⟨a, b, rest, hab⟩ : ∃ a b rest,
            (buildQuincenalSchedule ld count).take dues.length = a :: b :: rest := by
          cases hr : (buildQuincenalSchedule ld count).take dues.length with
          | nil => rw [hr] at hlen; simp at hlen
          | cons a t =>
            cases t with
            | nil => rw [hr] at hlen; simp at hlen
            | cons b rest => exact ⟨a, b, rest, rfl⟩
        have hne : a ≠ b := by
          rw [hab] at hpw
          have hlt := (List.pairwise_cons.mp hpw).1 b (by simp)
          intro he
          rw [he] at hlt
          exact lt_irrefl _ hlt
        have hdedup : 1 < ((buildQuincenalSchedule ld count).take dues.length).dedup.length := by
          by_contra hno
          push_neg at hno
          exact hne (dedup_length_le_one hno a (by rw [hab]; simp) b (by rw [hab]; simp))
        rw [ensureQuincenal, if_neg (by omega), if_pos hdedup]

/-! ### Claim C4: loan aggregator totals invariant -/

theorem refreshStatus_amount (today : String) (i : Installment) :
    (refreshStatus today i).amount = i.amount := by
  unfold refreshStatus; split_ifs <;> rfl

theorem refreshStatus_paidAmount (today : String) (i : Installment) :
    (refreshStatus today i).paidAmount = i.paidAmount := by
  unfold refreshStatus; split_ifs <;> rfl

theorem refreshStatus_loanId (today : String) (i : Installment) :
    (refreshStatus today i).loanId = i.loanId := by
  unfold refreshStatus; split_ifs <;> rfl

theorem refreshLoanInstallments_filter (today : String) (lid : ℕ) (l : List Installment) :
    (refreshLoanInstallments today lid l).filter (fun i => i.loanId == lid)
    = (l.filter (fun i => i.loanId == lid)).map (refreshStatus today) := by
  unfold refreshLoanInstallments
  induction l with
  | nil => rfl
  | cons i t ih =>
    by_cases hb : (i.loanId == lid) = true
    · have hb2 : ((refreshStatus today i).loanId == lid) = true := by
        rw [refreshStatus_loanId]; exact hb
      rw [List.map_cons, if_pos hb, List.filter_cons, List.filter_cons]
      rw [hb, hb2]
      simp only [if_true, List.map_cons, ih]
    · have hb' : (i.loanId == lid) = false := eq_false_of_ne_true hb
      rw [List.map_cons, if_neg hb, List.filter_cons, List.filter_cons]
      rw [hb']
      simp only [Bool.false_eq_true, if_false, ih]


theorem computeLoanTotals_sum {xs : List Installment}
    (hcent : ∀ i ∈ xs, Cent i.amount ∧ Cent i.paidAmount) :
    (computeLoanTotals xs).1 + (computeLoanTotals xs).2 =
      (xs.map Installment.amount).sum := by
  unfold computeLoanTotals
  have hpc : Cent ((xs.map Installment.paidAmount).sum) := by
    refine cent_sum ?_
    intro x hx
    simp only [List.mem_map] at hx
    obtain ⟨i, hi, rfl⟩ := hx
    exact (hcent i hi).2
  have hac : Cent ((xs.map Installment.amount).sum) := by
    refine cent_sum ?_
    intro x hx
    simp only [List.mem_map] at hx
    obtain ⟨i, hi, rfl⟩ := hx
    exact (hcent i hi).1
  dsimp only
  rw [round2_cent hpc, round2_cent hac, round2_sub_of_cent hac hpc]
  ring

/-- C4: after the aggregator refresh, the stored `paidTotal` plus
`pendingTotal` of the refreshed loan equals the exact sum of its installment
amounts, provided the stored amounts are exact two-decimal values (as every
write in the service makes them). -/
theorem claim_C4 (today : String) (lid : ℕ) (s : Store)
    (hcent : ∀ i ∈ loanInstallments s lid, Cent i.amount ∧ Cent i.paidAmount) :
    ∀ l ∈ (updateLoanTotalsAndStatus today lid s).loans, l.id = lid →
      l.paidTotal + l.pendingTotal = ((loanInstallments s lid).map Installment.amount).sum := by
  intro l hl hid
  unfold updateLoanTotalsAndStatus at hl
  simp only [List.mem_map] at hl
  obtain ⟨l0, hl0, rfl⟩ := hl
  have hxs : loanInstallments
      { s with installments := refreshLoanInstallments today lid s.installments } lid
      = (loanInstallments s lid).map (refreshStatus today) := by
    unfold loanInstallments
    exact refreshLoanInstallments_filter today lid s.installments
  have hcent2 : ∀ i ∈ (loanInstallments s lid).map (refreshStatus today),
      Cent i.amount ∧ Cent i.paidAmount := by
    intro i hi
    simp only [List.mem_map] at hi
    obtain ⟨j, hj, rfl⟩ := hi
    rw [refreshStatus_amount, refreshStatus_paidAmount]
    exact hcent j hj
  have hamts : (((loanInstallments s lid).map (refreshStatus today)).map
      Installment.amount) = (loanInstallments s lid).map Installment.amount := by
    rw [List.map_map]
    exact List.map_congr_left (fun i _ => refreshStatus_amount today i)
  have hsum := computeLoanTotals_sum hcent2
  rw [hamts] at hsum
  by_cases hb : (l0.id == lid) = true
  · rw [hxs] at hid ⊢
    rw [hb] at hid ⊢
    simp only [if_true] at hid ⊢
    exact hsum
  · have hb' : (l0.id == lid) = false := eq_false_of_ne_true hb
    rw [hxs] at hid ⊢
    rw [hb'] at hid ⊢
    simp only [Bool.false_eq_true, if_false] at hid ⊢
    exact absurd hid (by simpa using hb)


/-- Witness for C4: one installment of 300 with 100 paid gives 100 + 200 = 300. -/
theorem claim_C4_witness :
    (Loan.mk 1 1 1000 ⟨2024, 0, 10⟩ 1 LStatus.Activo 250 50 300 300 100 200).paidTotal +
      (Loan.mk 1 1 1000 ⟨2024, 0, 10⟩ 1 LStatus.Activo 250 50 300 300 100 200).pendingTotal =
    ((loanInstallments
        ⟨0, [], [1], [⟨1, 1, 1000, ⟨2024, 0, 10⟩, 1, LStatus.Activo, 250, 50, 300, 300, 0, 300⟩],
         [⟨1, 1, 1, "2024-07-01", 300, IStatus.Pendiente, none, 100⟩], [], 2, 2, 2, 1⟩ 1).map
      Installment.amount).sum := by
  have hs1 : strLt "2024-07-01" "2024-06-01" = false := by decide
  refine claim_C4 "2024-06-01" 1 _ ?_ _ ?_ rfl
  · intro i hi
    simp only [loanInstallments, List.filter] at hi
    simp at hi
    rw [hi]
    exact ⟨⟨30000, by norm_num⟩, ⟨10000, by norm_num⟩⟩
  · have hb0 : (IStatus.Pendiente == IStatus.Atrasada) = false := by decide
    norm_num [updateLoanTotalsAndStatus, refreshLoanInstallments, loanInstallments,
      computeLoanTotals, refreshStatus, hs1, hb0, round2, jsRound, eps]

/-! ### Claims C2 and C10: the payment allocator's payoff path -/

theorem cent_roundedAmountOf (a : Option ℚ) : Cent (roundedAmountOf a) := by
  cases a with
  | none => exact cent_zero
  | some x => exact cent_round2 x

theorem cent_payoffTotalOf (b i : ℚ) (xs : List Installment) : Cent (payoffTotalOf b i xs) := by
  unfold payoffTotalOf
  suffices h : ∀ acc : ℚ, Cent acc → Cent (xs.foldl (fun acc inst =>
      let principalPending := principalPendingOf b i inst
      if principalPending ≤ 0 then acc else round2 (acc + principalPending)) acc) by
    exact h 0 cent_zero
  induction xs with
  | nil => intro acc hacc; exact hacc
  | cons j t ih =>
    intro acc hacc
    simp only [List.foldl_cons]
    by_cases hc : principalPendingOf b i j ≤ 0
    · simpa [hc] using ih acc hacc
    · simpa [hc] using ih _ (cent_round2 _)

theorem postPaymentsTx_ok_shape {req : PayReq} {s s1 : Store} {lid : ℕ}
    (h : postPaymentsTx req s = Except.ok (s1, lid)) :
    ∃ pa : ℚ, Cent pa ∧ s1.capital = round2 (s.capital + pa) ∧
      (∃ m : Movement, m.amount = pa ∧ s1.movements = s.movements ++ [m]) ∧
      (∃ p : PaymentRow, p.amount = pa ∧
        p.installmentId = (if req.payoff then none else req.installmentId) ∧
        s1.payments = s.payments ++ [p]) := by
  unfold postPaymentsTx postPaymentsTxBody at h
  repeat' first
    | split at h
    | dsimp only at h
  all_goals first
    | (unfold finishPayment at h
       injection h with h1
       rw [Prod.mk.injEq] at h1
       obtain ⟨hs, hl⟩ := h1
       subst hs
       refine ⟨_, ?_, rfl, ⟨_, ?_, rfl⟩, ⟨_, ?_, ?_, rfl⟩⟩ <;>
         first
           | exact cent_payoffTotalOf _ _ _
           | exact cent_roundedAmountOf _
           | rfl)
    | cases h


/-- C10: with `payoff = true` the caller-supplied `amount` field is ignored:
any two requests differing only in `amount` produce identical outcomes, and
the stored payment row's `installment_id` is forced to null. -/
theorem claim_C10 (aggFails : Bool) (today : String) (req : PayReq) (a : Option ℚ) (s : Store)
    (hp : req.payoff = true) :
    postPayments aggFails today { req with amount := a } s = postPayments aggFails today req s ∧
    ∀ s1 lid, postPaymentsTx req s = Except.ok (s1, lid) →
      ∃ p : PaymentRow, p.installmentId = none ∧ s1.payments = s.payments ++ [p] := by
  constructor
  · have htx : postPaymentsTx { req with amount := a } s = postPaymentsTx req s := by
      unfold postPaymentsTx postPaymentsTxBody instLookup finishPayment
      simp only [hp, Bool.not_true, Bool.false_and, Bool.false_eq_true, if_false, if_true]
    unfold postPayments
    rw [htx]
  · intro s1 lid h
    obtain ⟨pa, _, _, _, ⟨p, _, hpi, hpay⟩⟩ := postPaymentsTx_ok_shape h
    refine ⟨p, ?_, hpay⟩
    rw [hpi, hp]
    rfl


theorem cent_principalPendingOf (b i : ℚ) (inst : Installment) :
    Cent (principalPendingOf b i inst) := cent_round2 _

theorem payoffTotalOf_eq_sum (b i : ℚ) (xs : List Installment) :
    payoffTotalOf b i xs = positivePendingSum b i xs := by
  unfold payoffTotalOf positivePendingSum
  suffices h : ∀ acc : ℚ, Cent acc → (xs.foldl (fun acc inst =>
      let principalPending := principalPendingOf b i inst
      if principalPending ≤ 0 then acc else round2 (acc + principalPending)) acc)
      = acc + (xs.map (fun j => if principalPendingOf b i j ≤ 0 then 0
          else principalPendingOf b i j)).sum by
    simpa using h 0 cent_zero
  induction xs with
  | nil => intro acc hacc; simp
  | cons j t ih =>
    intro acc hacc
    by_cases hc : principalPendingOf b i j ≤ 0
    · simp only [List.foldl_cons, List.map_cons, List.sum_cons, hc, if_true, if_pos hc]
      rw [ih acc hacc]
      ring
    · simp only [List.foldl_cons, List.map_cons, List.sum_cons, if_neg hc]
      rw [ih _ (cent_round2 _),
        round2_add_of_cent hacc (cent_principalPendingOf b i j)]
      ring

theorem cent_positivePendingSum (b i : ℚ) (xs : List Installment) :
    Cent (positivePendingSum b i xs) := by
  unfold positivePendingSum
  refine cent_sum ?_
  intro x hx
  simp only [List.mem_map] at hx
  obtain ⟨j, hj, rfl⟩ := hx
  by_cases hc : principalPendingOf b i j ≤ 0
  · simp [hc, cent_zero]
  · simp [hc, cent_principalPendingOf]

theorem payoffRewrite_loanId (b i : ℚ) (pd : String) (inst : Installment) :
    (payoffRewrite b i pd inst).loanId = inst.loanId := by
  unfold payoffRewrite
  dsimp only
  split <;> rfl

theorem filter_map_guard (f : Installment → Installment)
    (hf : ∀ i, (f i).loanId = i.loanId) (lid : ℕ) (l : List Installment) :
    (l.map (fun i => if i.loanId == lid then f i else i)).filter (fun i => i.loanId == lid)
    = (l.filter (fun i => i.loanId == lid)).map f := by
  induction l with
  | nil => rfl
  | cons i t ih =>
    by_cases hb : (i.loanId == lid) = true
    · have hb2 : ((f i).loanId == lid) = true := by rw [hf]; exact hb
      rw [List.map_cons, if_pos hb, List.filter_cons, List.filter_cons]
      rw [hb, hb2]
      simp only [if_true, List.map_cons, ih]
    · have hb' : (i.loanId == lid) = false := eq_false_of_ne_true hb
      rw [List.map_cons, if_neg hb, List.filter_cons, List.filter_cons]
      rw [hb']
      simp only [Bool.false_eq_true, if_false, ih]


/-- C2: a payoff on a loan whose recomputed pending total is positive either
fails as "already paid" (when the positive-pending-principal sum is ≤ 0) or
charges exactly that sum: it records a `payoff` payment row of that amount
with null installment id, credits capital by it, rewrites every installment
with positive pending principal to the fully-paid figure with `Pagada` and
the payment date (leaving the others untouched), and sets the loan's
`totalPayable = paidTotal =` the new installment-amount sum, `pendingTotal = 0`,
`status = Finalizado`. -/
theorem claim_C2 (req : PayReq) (s : Store) (lid : ℕ) (loan : Loan)
    (hp : req.payoff = true)
    (hlid : req.loanId = some lid)
    (hfind : s.loans.find? (fun l => l.id == lid) = some loan)
    (hcent : ∀ i ∈ loanInstallments s lid, Cent i.amount)
    (hpend : ¬ (computeLoanTotals (loanInstallments s lid)).2 ≤ 0) :
    (positivePendingSum loan.baseInstallment loan.interestPerInstallment
        (loanInstallments s lid) ≤ 0 →
      postPaymentsTx req s = Except.error "loan already paid") ∧
    (¬ positivePendingSum loan.baseInstallment loan.interestPerInstallment
        (loanInstallments s lid) ≤ 0 →
      ∃ s1, postPaymentsTx req s = Except.ok (s1, lid) ∧
        (∃ p : PaymentRow, s1.payments = s.payments ++ [p] ∧
          p.amount = positivePendingSum loan.baseInstallment loan.interestPerInstallment
            (loanInstallments s lid) ∧ p.ptype = "payoff" ∧ p.installmentId = none) ∧
        s1.capital = round2 (s.capital + positivePendingSum loan.baseInstallment
          loan.interestPerInstallment (loanInstallments s lid)) ∧
        (∀ i ∈ s.installments, i.loanId = lid →
          (¬ principalPendingOf loan.baseInstallment loan.interestPerInstallment i ≤ 0 →
            ({ i with
               amount := round2 (i.paidAmount +
                 principalPendingOf loan.baseInstallment loan.interestPerInstallment i)
               paidAmount := round2 (i.paidAmount +
                 principalPendingOf loan.baseInstallment loan.interestPerInstallment i)
               status := IStatus.Pagada
               paidDate := some req.paymentDate } : Installment) ∈ s1.installments) ∧
          (principalPendingOf loan.baseInstallment loan.interestPerInstallment i ≤ 0 →
            i ∈ s1.installments)) ∧
        (∀ l1 ∈ s1.loans, l1.id = lid →
          l1.totalPayable = ((loanInstallments s lid).map (fun j =>
            (payoffRewrite loan.baseInstallment loan.interestPerInstallment
              req.paymentDate j).amount)).sum ∧
          l1.paidTotal = l1.totalPayable ∧ l1.pendingTotal = 0 ∧
          l1.status = LStatus.Finalizado)) := by
  constructor
  · intro hSle
    unfold postPaymentsTx instLookup postPaymentsTxBody
    simp only [hp, Bool.not_true, Bool.false_and, Bool.false_eq_true, if_false, if_true,
      hlid, hfind]
    rw [payoffTotalOf_eq_sum]
    rw [if_neg hpend, if_pos hSle]
  · intro hSgt
    unfold postPaymentsTx instLookup postPaymentsTxBody finishPayment
    simp only [hp, Bool.not_true, Bool.false_and, Bool.false_eq_true, if_false, if_true,
      hlid, hfind]
    rw [payoffTotalOf_eq_sum]
    rw [if_neg hpend, if_neg hSgt]
    refine ⟨_, rfl, ⟨_, rfl, rfl, rfl, rfl⟩, rfl, ?_, ?_⟩
    · intro i hi hil
      constructor
      · intro hppos
        refine List.mem_map.mpr ⟨i, hi, ?_⟩
        rw [if_pos (by simp [hil] : (i.loanId == lid) = true)]
        unfold payoffRewrite
        dsimp only
        rw [if_neg hppos]
      · intro hple
        refine List.mem_map.mpr ⟨i, hi, ?_⟩
        rw [if_pos (by simp [hil] : (i.loanId == lid) = true)]
        unfold payoffRewrite
        dsimp only
        rw [if_pos hple]
    · intro l1 hl1 hid1
      simp only [List.mem_map] at hl1
      obtain ⟨l0, hl0, rfl⟩ := hl1
      have hupd : round2 ((((s.installments.map (fun i =>
          if i.loanId == lid then payoffRewrite loan.baseInstallment
            loan.interestPerInstallment req.paymentDate i else i)).filter
          (fun i => i.loanId == lid)).map Installment.amount).sum)
          = ((loanInstallments s lid).map (fun j =>
            (payoffRewrite loan.baseInstallment loan.interestPerInstallment
              req.paymentDate j).amount)).sum := by
        rw [filter_map_guard _ (payoffRewrite_loanId _ _ _) lid s.installments]
        rw [List.map_map]
        refine round2_cent (cent_sum ?_)
        intro x hx
        simp only [List.mem_map, Function.comp] at hx
        obtain ⟨j, hj, rfl⟩ := hx
        unfold payoffRewrite
        dsimp only
        by_cases hple : principalPendingOf loan.baseInstallment
            loan.interestPerInstallment j ≤ 0
        · rw [if_pos hple]
          exact hcent j hj
        · rw [if_neg hple]
          exact cent_round2 _
      by_cases hb : (l0.id == lid) = true
      · rw [if_pos hb] at hid1 ⊢
        dsimp only at hid1 ⊢
        rw [loanInstallments] at hupd
        refine ⟨hupd, rfl, rfl, rfl⟩
      · rw [if_neg hb] at hid1 ⊢
        exact absurd hid1 (by simpa using hb)


/-- Witness for C2: one unpaid installment with base 250 and interest 50 is
charged exactly 250. -/
theorem claim_C2_witness :
    positivePendingSum 250 50 (loanInstallments
      ⟨0, [], [1], [⟨1, 1, 1000, ⟨2024, 0, 10⟩, 1, LStatus.Activo, 250, 50, 300, 300, 0, 300⟩],
       [⟨1, 1, 1, "2024-07-01", 300, IStatus.Pendiente, none, 0⟩], [], 2, 2, 2, 1⟩ 1) = 250 ∧
    (∃ s1, postPaymentsTx ⟨none, some 1, none, none, "2024-06-15", true⟩
        ⟨0, [], [1], [⟨1, 1, 1000, ⟨2024, 0, 10⟩, 1, LStatus.Activo, 250, 50, 300, 300, 0, 300⟩],
         [⟨1, 1, 1, "2024-07-01", 300, IStatus.Pendiente, none, 0⟩], [], 2, 2, 2, 1⟩
        = Except.ok (s1, 1) ∧
      ∃ p : PaymentRow, s1.payments = [] ++ [p] ∧ p.amount = 250 ∧ p.ptype = "payoff" ∧
        p.installmentId = none) := by
  have hS : positivePendingSum (250 : ℚ) 50 (loanInstallments
      ⟨0, [], [1], [⟨1, 1, 1000, ⟨2024, 0, 10⟩, 1, LStatus.Activo, 250, 50, 300, 300, 0, 300⟩],
       [⟨1, 1, 1, "2024-07-01", 300, IStatus.Pendiente, none, 0⟩], [], 2, 2, 2, 1⟩ 1) = 250 := by
    norm_num [positivePendingSum, principalPendingOf, loanInstallments, round2, jsRound, eps]
  refine ⟨hS, ?_⟩
  have hmain := (claim_C2 ⟨none, some 1, none, none, "2024-06-15", true⟩
      ⟨0, [], [1], [⟨1, 1, 1000, ⟨2024, 0, 10⟩, 1, LStatus.Activo, 250, 50, 300, 300, 0, 300⟩],
       [⟨1, 1, 1, "2024-07-01", 300, IStatus.Pendiente, none, 0⟩], [], 2, 2, 2, 1⟩ 1
      ⟨1, 1, 1000, ⟨2024, 0, 10⟩, 1, LStatus.Activo, 250, 50, 300, 300, 0, 300⟩
      rfl rfl rfl
      (by
        intro i hi
        simp [loanInstallments] at hi
        rw [hi]
        exact ⟨30000, by norm_num⟩)
      (by norm_num [computeLoanTotals, loanInstallments, round2, jsRound, eps])).2
    (by rw [hS]; norm_num)
  obtain ⟨s1, htx, ⟨p, hp1, hp2, hp3, hp4⟩, _⟩ := hmain
  refine ⟨s1, htx, p, hp1, ?_, hp3, hp4⟩
  rw [hp2, hS]

/-! ### Claim C3: transactionality of the payment path -/

/-- Witness for C10: payoff outcomes coincide for amount 999 and no amount. -/
theorem claim_C10_witness :
    postPayments false "2024-06-15"
      { (⟨none, some 1, none, none, "2024-06-15", true⟩ : PayReq) with amount := some 999 }
      ⟨0, [], [1], [⟨1, 1, 1000, ⟨2024, 0, 10⟩, 1, LStatus.Activo, 250, 50, 300, 300, 0, 300⟩],
       [⟨1, 1, 1, "2024-07-01", 300, IStatus.Pendiente, none, 0⟩], [], 2, 2, 2, 1⟩ =
    postPayments false "2024-06-15" ⟨none, some 1, none, none, "2024-06-15", true⟩
      ⟨0, [], [1], [⟨1, 1, 1000, ⟨2024, 0, 10⟩, 1, LStatus.Activo, 250, 50, 300, 300, 0, 300⟩],
       [⟨1, 1, 1, "2024-07-01", 300, IStatus.Pendiente, none, 0⟩], [], 2, 2, 2, 1⟩ :=
  (claim_C10 false "2024-06-15" ⟨none, some 1, none, none, "2024-06-15", true⟩ (some 999)
    ⟨0, [], [1], [⟨1, 1, 1000, ⟨2024, 0, 10⟩, 1, LStatus.Activo, 250, 50, 300, 300, 0, 300⟩],
     [⟨1, 1, 1, "2024-07-01", 300, IStatus.Pendiente, none, 0⟩], [], 2, 2, 2, 1⟩ rfl).1

/-- C3 amended: every error response produced while the payment transaction
is open (any error when the downstream recompute does not fail) leaves the
observable store exactly as it was; an error of the post-`COMMIT` recompute,
however, leaves the committed payment writes in place (see the
counterexample). -/
theorem claim_C3_amended (today : String) (req : PayReq) (s : Store) (e : String) (s2 : Store)
    (h : postPayments false today req s = (some e, s2)) : s2 = s := by
  unfold postPayments at h
  cases htx : postPaymentsTx req s with
  | error e2 =>
    rw [htx] at h
    injection h with h1 h2
    exact h2.symm
  | ok pr =>
    rw [htx] at h
    obtain ⟨s1, lid⟩ := pr
    simp only [Bool.false_eq_true, if_false] at h
    injection h with h1 h2
    cases h1

/-- Witness for C3 amended: a rejected payment (missing amount) leaves the
store unchanged. -/
theorem claim_C3_amended_witness :
    (postPayments false "2024-06-15" ⟨none, some 1, none, none, "2024-06-15", false⟩
      ⟨0, [], [1], [⟨1, 1, 1000, ⟨2024, 0, 10⟩, 1, LStatus.Activo, 250, 50, 300, 300, 0, 300⟩],
       [⟨1, 1, 1, "2024-07-01", 300, IStatus.Pendiente, none, 0⟩], [], 2, 2, 2, 1⟩).2 =
    ⟨0, [], [1], [⟨1, 1, 1000, ⟨2024, 0, 10⟩, 1, LStatus.Activo, 250, 50, 300, 300, 0, 300⟩],
     [⟨1, 1, 1, "2024-07-01", 300, IStatus.Pendiente, none, 0⟩], [], 2, 2, 2, 1⟩ :=
  claim_C3_amended "2024-06-15" ⟨none, some 1, none, none, "2024-06-15", false⟩
    ⟨0, [], [1], [⟨1, 1, 1000, ⟨2024, 0, 10⟩, 1, LStatus.Activo, 250, 50, 300, 300, 0, 300⟩],
     [⟨1, 1, 1, "2024-07-01", 300, IStatus.Pendiente, none, 0⟩], [], 2, 2, 2, 1⟩
    "amount must be greater than 0" _ rfl

/-- C3 counterexample: a successful 50 payment whose post-`COMMIT` totals
recompute fails returns an error, yet the store shows the committed writes
(capital 50 instead of the original 0), falsifying atomicity as claimed. -/
theorem claim_C3_counterexample :
    (postPayments true "2024-06-15" ⟨none, some 1, none, some 50, "2024-06-15", false⟩
      ⟨0, [], [1], [⟨1, 1, 1000, ⟨2024, 0, 10⟩, 1, LStatus.Activo, 250, 50, 300, 300, 0, 300⟩],
       [⟨1, 1, 1, "2024-07-01", 300, IStatus.Pendiente, none, 0⟩], [], 2, 2, 2, 1⟩).1
      = some "storage error" ∧
    (postPayments true "2024-06-15" ⟨none, some 1, none, some 50, "2024-06-15", false⟩
      ⟨0, [], [1], [⟨1, 1, 1000, ⟨2024, 0, 10⟩, 1, LStatus.Activo, 250, 50, 300, 300, 0, 300⟩],
       [⟨1, 1, 1, "2024-07-01", 300, IStatus.Pendiente, none, 0⟩], [], 2, 2, 2, 1⟩).2.capital = 50 ∧
    (postPayments true "2024-06-15" ⟨none, some 1, none, some 50, "2024-06-15", false⟩
      ⟨0, [], [1], [⟨1, 1, 1000, ⟨2024, 0, 10⟩, 1, LStatus.Activo, 250, 50, 300, 300, 0, 300⟩],
       [⟨1, 1, 1, "2024-07-01", 300, IStatus.Pendiente, none, 0⟩], [], 2, 2, 2, 1⟩).2 ≠
      ⟨0, [], [1], [⟨1, 1, 1000, ⟨2024, 0, 10⟩, 1, LStatus.Activo, 250, 50, 300, 300, 0, 300⟩],
       [⟨1, 1, 1, "2024-07-01", 300, IStatus.Pendiente, none, 0⟩], [], 2, 2, 2, 1⟩ := by
  have htx : postPaymentsTx ⟨none, some 1, none, some 50, "2024-06-15", false⟩
      ⟨0, [], [1], [⟨1, 1, 1000, ⟨2024, 0, 10⟩, 1, LStatus.Activo, 250, 50, 300, 300, 0, 300⟩],
       [⟨1, 1, 1, "2024-07-01", 300, IStatus.Pendiente, none, 0⟩], [], 2, 2, 2, 1⟩ =
      Except.ok
        (⟨50, [⟨"payment", 50, some 1, some 1, some "Pago registrado"⟩], [1],
          [⟨1, 1, 1000, ⟨2024, 0, 10⟩, 1, LStatus.Activo, 250, 50, 300, 300, 0, 300⟩],
          [⟨1, 1, 1, "2024-07-01", 300, IStatus.Pendiente, none, 50⟩],
          [⟨1, 1, 1, none, "2024-06-15", 50, "payment"⟩], 2, 2, 2, 2⟩, 1) := by
    norm_num [postPaymentsTx, postPaymentsTxBody, instLookup, validAmountB, roundedAmountOf,
      finishPayment, allocate, startNumberSkip, computeLoanTotals, loanInstallments,
      round2, jsRound, eps]
    intro h
    cases h
  have hpp : postPayments true "2024-06-15" ⟨none, some 1, none, some 50, "2024-06-15", false⟩
      ⟨0, [], [1], [⟨1, 1, 1000, ⟨2024, 0, 10⟩, 1, LStatus.Activo, 250, 50, 300, 300, 0, 300⟩],
       [⟨1, 1, 1, "2024-07-01", 300, IStatus.Pendiente, none, 0⟩], [], 2, 2, 2, 1⟩ =
      (some "storage error",
        ⟨50, [⟨"payment", 50, some 1, some 1, some "Pago registrado"⟩], [1],
         [⟨1, 1, 1000, ⟨2024, 0, 10⟩, 1, LStatus.Activo, 250, 50, 300, 300, 0, 300⟩],
         [⟨1, 1, 1, "2024-07-01", 300, IStatus.Pendiente, none, 50⟩],
         [⟨1, 1, 1, none, "2024-06-15", 50, "payment"⟩], 2, 2, 2, 2⟩) := by
    unfold postPayments
    rw [htx]
    rfl
  refine ⟨?_, ?_, ?_⟩
  · rw [hpp]
  · rw [hpp]
  · rw [hpp]
    intro h
    have hc := congrArg Store.capital h
    norm_num at hc

/-! ### Claim C1: the capital auditability invariant -/

theorem movementSum_append (s : Store) (m : Movement) (l : List Movement)
    (h : l = s.movements ++ [m]) :
    (l.map Movement.amount).sum = movementSum s + m.amount := by
  rw [h]
  simp [movementSum]

theorem putCapitalOp_preserves (a : ℚ) {s : Store}
    (hi : capitalInvariant s) (hc : Cent s.capital) :
    capitalInvariant (putCapitalOp a s) ∧ Cent (putCapitalOp a s).capital := by
  unfold putCapitalOp
  split
  · exact ⟨hi, hc⟩
  · dsimp only
    have hdelta : round2 (a - s.capital) = round2 a - s.capital := by
      have h1 : a - s.capital = a + (-s.capital) := by ring
      rw [h1, round2_add_cent (cent_neg hc)]
      ring
    split
    case isTrue hz =>
      rw [hdelta] at hz
      have hcap : round2 a = s.capital := by linarith [hz]
      constructor
      · unfold capitalInvariant movementSum at hi ⊢
        dsimp only
        rw [hcap]
        exact hi
      · dsimp only
        rw [hcap]
        exact hc
    case isFalse hz =>
      constructor
      · unfold capitalInvariant at hi ⊢
        unfold movementSum
        dsimp only
        rw [List.map_append, List.sum_append]
        simp only [List.map_cons, List.map_nil, List.sum_cons, List.sum_nil]
        rw [hdelta]
        unfold movementSum at hi
        rw [← hi]
        ring
      · dsimp only
        exact cent_round2 a

theorem adjustCapitalOp_preserves (d : ℚ) (note : Option String) {s : Store}
    (hd : Cent d) (hi : capitalInvariant s) (hc : Cent s.capital) :
    capitalInvariant (adjustCapitalOp d note s) ∧ Cent (adjustCapitalOp d note s).capital := by
  unfold adjustCapitalOp
  dsimp only
  split
  · exact ⟨hi, hc⟩
  · have hnext : round2 (s.capital + d) = s.capital + d := round2_add_of_cent hc hd
    constructor
    · unfold capitalInvariant movementSum at hi ⊢
      dsimp only
      rw [List.map_append, List.sum_append]
      simp only [List.map_cons, List.map_nil, List.sum_cons, List.sum_nil]
      rw [hnext, ← hi]
      ring
    · dsimp only
      rw [hnext]
      exact cent_add hc hd

theorem newClientOp_preserves {s : Store}
    (hi : capitalInvariant s) (hc : Cent s.capital) :
    capitalInvariant (newClientOp s) ∧ Cent (newClientOp s).capital :=
  ⟨hi, hc⟩

theorem createLoanOp_preserves (c : ℕ) (a : ℚ) (ld : YMD) (n : ℕ) {s : Store}
    (ha : Cent a) (hi : capitalInvariant s) (hc : Cent s.capital) :
    capitalInvariant (createLoanOp c a ld n s) ∧ Cent (createLoanOp c a ld n s).capital := by
  unfold createLoanOp
  split
  · exact ⟨hi, hc⟩
  · split
    · exact ⟨hi, hc⟩
    · split
      · exact ⟨hi, hc⟩
      · split
        · exact ⟨hi, hc⟩
        · have hcap : round2 (s.capital - a) = s.capital - a := round2_sub_of_cent hc ha
          constructor
          · unfold capitalInvariant movementSum at hi ⊢
            dsimp only
            rw [List.map_append, List.sum_append]
            simp only [List.map_cons, List.map_nil, List.sum_cons, List.sum_nil]
            rw [hcap, ← hi]
            ring
          · dsimp only
            rw [hcap]
            exact cent_sub hc ha

theorem updateLoanTotals_capital (today : String) (lid : ℕ) (s : Store) :
    (updateLoanTotalsAndStatus today lid s).capital = s.capital ∧
    (updateLoanTotalsAndStatus today lid s).movements = s.movements := by
  unfold updateLoanTotalsAndStatus
  exact ⟨rfl, rfl⟩

theorem postPayments_preserves (f : Bool) (t : String) (r : PayReq) {s : Store}
    (hi : capitalInvariant s) (hc : Cent s.capital) :
    capitalInvariant (postPayments f t r s).2 ∧ Cent (postPayments f t r s).2.capital := by
  unfold postPayments
  cases htx : postPaymentsTx r s with
  | error e => exact ⟨hi, hc⟩
  | ok pr =>
    obtain ⟨s1, lid⟩ := pr
    obtain ⟨pa, hpa, hcap1, ⟨m, hm, hmov⟩, _⟩ := postPaymentsTx_ok_shape htx
    have hinv1 : capitalInvariant s1 := by
      unfold capitalInvariant
      rw [hcap1, round2_add_of_cent hc hpa]
      unfold movementSum
      rw [movementSum_append s m s1.movements hmov, hm]
      unfold capitalInvariant at hi
      rw [← hi]
    have hcent1 : Cent s1.capital := by
      rw [hcap1]
      exact cent_round2 _
    cases f with
    | true => exact ⟨hinv1, hcent1⟩
    | false =>
      simp only [Bool.false_eq_true, if_false]
      obtain ⟨hcap2, hmov2⟩ := updateLoanTotals_capital t lid s1
      constructor
      · unfold capitalInvariant movementSum
        rw [hcap2, hmov2]
        exact hinv1
      · rw [hcap2]
        exact hcent1

theorem applyOp_preserves {op : Op} (hgood : goodOp op) {s : Store}
    (hi : capitalInvariant s) (hc : Cent s.capital) :
    capitalInvariant (applyOp op s) ∧ Cent (applyOp op s).capital := by
  cases op with
  | putCap a => exact putCapitalOp_preserves a hi hc
  | adjCap d note => exact adjustCapitalOp_preserves d note hgood hi hc
  | newClient => exact newClientOp_preserves hi hc
  | newLoan c a ld n => exact createLoanOp_preserves c a ld n hgood hi hc
  | pay f t r => exact postPayments_preserves f t r hi hc
  | delLoan l => exact hgood.elim


/-- C1 amended: starting from the seeded store, the capital always equals the
sum of the stored movement amounts over any sequence of manual sets, manual
adjusts, client/loan creations and payments (normal or payoff), provided
every manual-adjust delta and every loan principal is an exact two-decimal
value and no cascade deletion occurs. -/
theorem claim_C1_amended (ops : List Op) (hgood : ∀ op ∈ ops, goodOp op) :
    capitalInvariant (runOps ops) := by
  suffices h : ∀ (l : List Op) (s : Store), (∀ op ∈ l, goodOp op) →
      capitalInvariant s → Cent s.capital →
      capitalInvariant (l.foldl (fun s op => applyOp op s) s) ∧
        Cent (l.foldl (fun s op => applyOp op s) s).capital by
    exact (h ops initStore hgood rfl cent_zero).1
  intro l
  induction l with
  | nil => intro s _ hi hc; exact ⟨hi, hc⟩
  | cons op t ih =>
    intro s hg hi hc
    have hstep := applyOp_preserves (hg op (by simp)) hi hc
    exact ih (applyOp op s) (fun o ho => hg o (by simp [ho])) hstep.1 hstep.2

/-- Witness for C1 amended: set capital to 1000, create a client and lend it
500 over 4 installments; the invariant holds. -/
theorem claim_C1_amended_witness :
    capitalInvariant (runOps
      [Op.putCap 1000, Op.newClient, Op.newLoan 1 500 ⟨2024, 5, 10⟩ 4]) := by
  refine claim_C1_amended _ ?_
  intro op hop
  simp only [List.mem_cons, List.not_mem_nil, or_false] at hop
  rcases hop with rfl | rfl | rfl
  · exact trivial
  · exact trivial
  · exact ⟨50000, by norm_num⟩

/-- C1 counterexample: the invariant fails as claimed.  (i) A manual adjust
by the non-2-decimal delta 1/200 stores capital `round2(1/200) = 0.01` but a
movement of `1/200`.  (ii) Setting capital to 1000, lending 500 and then
cascade-deleting the loan erases the `loan` movement without restoring
capital: capital 500 against a movement sum of 1000. -/
theorem claim_C1_counterexample :
    ¬ capitalInvariant (runOps [Op.adjCap (1 / 200) none]) ∧
    ¬ capitalInvariant (runOps [Op.putCap 1000, Op.newClient,
      Op.newLoan 1 500 ⟨2024, 5, 10⟩ 4, Op.delLoan 1]) := by
  constructor
  · have h1 : runOps [Op.adjCap (1 / 200) none] =
        { initStore with
          capital := 1 / 100
          movements := [⟨"manual_adjust", 1 / 200, none, none, none⟩] } := by
      unfold runOps applyOp adjustCapitalOp initStore
      norm_num [round2, jsRound, eps]
    rw [h1]
    unfold capitalInvariant movementSum
    norm_num
  · have h1 : applyOp (Op.putCap 1000) initStore =
        ⟨1000, [⟨"manual_set", 1000, none, none, some "Capital actualizado manualmente"⟩],
         [], [], [], [], 1, 1, 1, 1⟩ := by
      unfold applyOp putCapitalOp initStore
      norm_num [round2, jsRound, eps]
    have h2 : applyOp Op.newClient
        ⟨1000, [⟨"manual_set", 1000, none, none, some "Capital actualizado manualmente"⟩],
         [], [], [], [], 1, 1, 1, 1⟩ =
        ⟨1000, [⟨"manual_set", 1000, none, none, some "Capital actualizado manualmente"⟩],
         [1], [], [], [], 2, 1, 1, 1⟩ := rfl
    have hrun : runOps [Op.putCap 1000, Op.newClient,
        Op.newLoan 1 500 ⟨2024, 5, 10⟩ 4, Op.delLoan 1] =
        applyOp (Op.delLoan 1) (applyOp (Op.newLoan 1 500 ⟨2024, 5, 10⟩ 4)
          ⟨1000, [⟨"manual_set", 1000, none, none, some "Capital actualizado manualmente"⟩],
           [1], [], [], [], 2, 1, 1, 1⟩) := by
      unfold runOps
      rw [List.foldl_cons, h1, List.foldl_cons, h2, List.foldl_cons, List.foldl_cons,
        List.foldl_nil]
    rw [hrun]
    set s2 : Store :=
      ⟨1000, [⟨"manual_set", 1000, none, none, some "Capital actualizado manualmente"⟩],
       [1], [], [], [], 2, 1, 1, 1⟩ with hs2
    have h3cap : (applyOp (Op.newLoan 1 500 ⟨2024, 5, 10⟩ 4) s2).capital = 500 := by
      unfold applyOp createLoanOp
      norm_num [hs2, round2, jsRound, eps]
    have h3mov : (applyOp (Op.newLoan 1 500 ⟨2024, 5, 10⟩ 4) s2).movements =
        [⟨"manual_set", 1000, none, none, some "Capital actualizado manualmente"⟩,
         ⟨"loan", -500, some 1, none, some "Préstamo creado"⟩] := by
      unfold applyOp createLoanOp
      norm_num [hs2]
    have h3loans : ∃ l0 : Loan, l0.id = 1 ∧
        (applyOp (Op.newLoan 1 500 ⟨2024, 5, 10⟩ 4) s2).loans = [l0] := by
      unfold applyOp createLoanOp
      norm_num [hs2]
    have h3pays : (applyOp (Op.newLoan 1 500 ⟨2024, 5, 10⟩ 4) s2).payments = [] := by
      unfold applyOp createLoanOp
      norm_num [hs2]
    obtain ⟨l0, hl0id, hl0⟩ := h3loans
    set s3 : Store := applyOp (Op.newLoan 1 500 ⟨2024, 5, 10⟩ 4) s2 with hs3
    simp only [applyOp]
    unfold deleteLoanCascadeOp
    rw [hl0]
    have hfind : (List.find? (fun l => l.id == 1) [l0]).isNone = false := by
      simp [List.find?, hl0id]
    rw [hfind]
    simp only [Bool.false_eq_true, if_false]
    unfold capitalInvariant movementSum
    dsimp only
    rw [h3cap, h3mov, h3pays]
    norm_num

end Prestamos
